import Mathlib

/-!
Verification development for the voice-call MCP server.

The definitions below are shallow embeddings of the TypeScript source:

* `Rx`, `Rx.search` — a small regular-expression matcher (Brzozowski
  derivatives) used to embed the JavaScript `RegExp.test` calls of
  `src/services/ivr-navigation.service.ts` faithfully; every concrete
  pattern below transcribes one regex literal of the source.
* `IVRNavigationService` logic: `detectIVRSystem`, `detectHuman`,
  `findMatchingRule`, `processTranscript` over an embedded `IVRState`
  (plus a boolean modelling membership of the call in the service's
  timeout map).
* `ProviderSwitchService.switchToElevenLabs` as a pure state/action
  function (`switchToElevenLabs`).
* `BatchOperationService` operations from `start-http.ts`.
* `TwilioCallService.makeBatchCalls` / `processBatchQueue` chunking
  and queue model from `sms-storage.service.ts`.
* the ElevenLabs WebSocket message handler (ping/pong) from
  `src/services/elevenlabs/ws.service.ts`.
* `handleSpeechStartedEvent` (barge-in) from the OpenAI call handler.

Dates are modelled as integers, JavaScript truthiness of optional
strings/numbers is made explicit where the source relies on it.
-/

namespace VoiceCall

/-! ### A tiny regex engine (Brzozowski derivatives)

Characters classes are predicates; the JavaScript `i` flag is modelled
by lowercasing the subject string and writing patterns in lowercase.
-/

inductive Rx where
  | fail : Rx
  | eps : Rx
  | ch (c : Char) : Rx
  | cls (p : Char → Bool) : Rx
  | seq (a b : Rx) : Rx
  | alt (a b : Rx) : Rx
  | star (a : Rx) : Rx

def Rx.nullable : Rx → Bool
  | .fail => false
  | .eps => true
  | .ch _ => false
  | .cls _ => false
  | .seq a b => a.nullable && b.nullable
  | .alt a b => a.nullable || b.nullable
  | .star _ => true

/-- Smart sequencing (keeps derivative terms small). -/
def Rx.seqS : Rx → Rx → Rx
  | .fail, _ => .fail
  | .eps, b => b
  | a, b =>
    match b with
    | .fail => .fail
    | .eps => a
    | b => .seq a b

/-- Smart alternation (keeps derivative terms small). -/
def Rx.altS : Rx → Rx → Rx
  | .fail, b => b
  | a, b =>
    match b with
    | .fail => a
    | b => .alt a b

def Rx.deriv : Rx → Char → Rx
  | .fail, _ => .fail
  | .eps, _ => .fail
  | .ch c, d => if c = d then .eps else .fail
  | .cls p, d => if p d then .eps else .fail
  | .seq a b, d =>
      if a.nullable then Rx.altS (Rx.seqS (a.deriv d) b) (b.deriv d)
      else Rx.seqS (a.deriv d) b
  | .alt a b, d => Rx.altS (a.deriv d) (b.deriv d)
  | .star a, d => Rx.seqS (a.deriv d) (.star a)

/-- Whole-list matching: fold derivatives over the input. -/
def Rx.matchList (r : Rx) (s : List Char) : Bool :=
  (s.foldl Rx.deriv r).nullable

/-- Embedding of `.` in the patterns (no newlines occur in the modelled inputs). -/
def Rx.anyc : Rx := .cls (fun _ => true)

def Rx.dotStar : Rx := .star Rx.anyc

def lowerList (s : List Char) : List Char := s.map Char.toLower

/-- Unanchored case-insensitive `RegExp.test`. -/
def Rx.testI (r : Rx) (s : String) : Bool :=
  Rx.matchList (.seq Rx.dotStar (.seq r Rx.dotStar)) (lowerList s.toList)

/-- Embedding of `^`-anchored case-insensitive `RegExp.test`. -/
def Rx.testIAnchored (r : Rx) (s : String) : Bool :=
  Rx.matchList (.seq r Rx.dotStar) (lowerList s.toList)

/-- Literal string pattern. -/
def Rx.lit (s : String) : Rx :=
  s.toList.foldr (fun c r => Rx.seq (Rx.ch c) r) .eps

/-- Sequence of patterns. -/
def Rx.seqs (l : List Rx) : Rx := l.foldr Rx.seq .eps

/-- Alternation over a list of patterns. -/
def Rx.alts : List Rx → Rx
  | [] => Rx.fail
  | [r] => r
  | r :: rest => .alt r (Rx.alts rest)

def isSpaceChar (c : Char) : Bool :=
  c = ' ' || c = '\t' || c = '\n' || c = '\r'

/-- Embedding of `\s*` -/
def Rx.ws : Rx := .star (.cls isSpaceChar)

/-- Embedding of `\d+` -/
def Rx.digits : Rx := .seq (.cls Char.isDigit) (.star (.cls Char.isDigit))

def isWordChar (c : Char) : Bool := c.isAlphanum || c = '_'

/-- Embedding of `\w+` -/
def Rx.word : Rx := .seq (.cls isWordChar) (.star (.cls isWordChar))

/-- Embedding of `,?` -/
def Rx.optComma : Rx := .alt .eps (.ch ',')

/-! ### IVR navigation service (`src/services/ivr-navigation.service.ts`) -/

inductive AIProvider where
  | openai
  | elevenlabs
deriving DecidableEq

inductive AmdStatus where
  | unknown
  | human
  | machine
  | fax
deriving DecidableEq

/-- Embedding of `IVRState` from `types.ts` (part_005). -/
structure IVRState where
  isNavigating : Bool
  humanDetected : Bool
  originalProvider : AIProvider
  currentProvider : AIProvider
  menuLevel : Nat
  optionsHeard : List String
  actionsToken : List String
  waitingForResponse : Bool
  amdStatus : AmdStatus
deriving DecidableEq

/-- Initial `ivrState` of a fresh `CallState` (part_005). -/
def initialIVRState : IVRState :=
  { isNavigating := false
    humanDetected := false
    originalProvider := .openai
    currentProvider := .openai
    menuLevel := 0
    optionsHeard := []
    actionsToken := []
    waitingForResponse := false
    amdStatus := .unknown }

/-- The per-call IVR navigation state together with a boolean recording
whether the call currently has an entry in the service's
`ivrTimeouts` map (a pending per-level timeout). -/
structure NavState where
  ivr : IVRState
  timeoutActive : Bool
deriving DecidableEq

def initialNavState : NavState :=
  { ivr := initialIVRState, timeoutActive := false }

/-- An IVR rule: `{ pattern, action, delay?, confidence? }`. -/
structure IVRRule where
  pattern : Rx
  action : String
  delay : Option ℚ := none
  confidence : Option ℚ := none

/-- Embedding of `rule.confidence || 0.5` -/
def effConfidence (r : IVRRule) : ℚ :=
  match r.confidence with
  | none => mkRat 1 2
  | some c => if c = 0 then mkRat 1 2 else c

/- The eleven regexes of `COMMON_IVR_RULES`, transcribed one by one. -/

/-- Embedding of `/press\s*0\s*for\s*(operator|representative|agent|customer\s*service)/i` -/
def patPress0For : Rx :=
  Rx.seqs [Rx.lit "press", Rx.ws, Rx.lit "0", Rx.ws, Rx.lit "for", Rx.ws,
    Rx.alts [Rx.lit "operator", Rx.lit "representative", Rx.lit "agent",
      Rx.seqs [Rx.lit "customer", Rx.ws, Rx.lit "service"]]]

/-- Embedding of `/press\s*0\s*to\s*speak/i` -/
def patPress0ToSpeak : Rx :=
  Rx.seqs [Rx.lit "press", Rx.ws, Rx.lit "0", Rx.ws, Rx.lit "to", Rx.ws, Rx.lit "speak"]

/-- Embedding of `/operator.*press\s*0/i` -/
def patOperatorPress0 : Rx :=
  Rx.seqs [Rx.lit "operator", Rx.dotStar, Rx.lit "press", Rx.ws, Rx.lit "0"]

/-- Embedding of `/press\s*1\s*for\s*sales/i` -/
def patPress1Sales : Rx :=
  Rx.seqs [Rx.lit "press", Rx.ws, Rx.lit "1", Rx.ws, Rx.lit "for", Rx.ws, Rx.lit "sales"]

/-- Embedding of `/press\s*2\s*for\s*(support|technical|customer\s*service)/i` -/
def patPress2Support : Rx :=
  Rx.seqs [Rx.lit "press", Rx.ws, Rx.lit "2", Rx.ws, Rx.lit "for", Rx.ws,
    Rx.alts [Rx.lit "support", Rx.lit "technical",
      Rx.seqs [Rx.lit "customer", Rx.ws, Rx.lit "service"]]]

/-- Embedding of `/press\s*3\s*for\s*billing/i` -/
def patPress3Billing : Rx :=
  Rx.seqs [Rx.lit "press", Rx.ws, Rx.lit "3", Rx.ws, Rx.lit "for", Rx.ws, Rx.lit "billing"]

/-- Embedding of `/press\s*9\s*to\s*repeat/i` -/
def patPress9Repeat : Rx :=
  Rx.seqs [Rx.lit "press", Rx.ws, Rx.lit "9", Rx.ws, Rx.lit "to", Rx.ws, Rx.lit "repeat"]

/-- Embedding of `/press\s*\*\s*to\s*skip/i` -/
def patPressStarSkip : Rx :=
  Rx.seqs [Rx.lit "press", Rx.ws, Rx.lit "*", Rx.ws, Rx.lit "to", Rx.ws, Rx.lit "skip"]

/-- Embedding of `/press\s*#\s*to\s*continue/i` -/
def patPressHashCont : Rx :=
  Rx.seqs [Rx.lit "press", Rx.ws, Rx.lit "#", Rx.ws, Rx.lit "to", Rx.ws, Rx.lit "continue"]

/-- Embedding of `/for\s*english.*press\s*1/i` -/
def patForEnglish : Rx :=
  Rx.seqs [Rx.lit "for", Rx.ws, Rx.lit "english", Rx.dotStar, Rx.lit "press", Rx.ws, Rx.lit "1"]

/-- Embedding of `/para\s*español.*oprima\s*2/i` -/
def patParaEspanol : Rx :=
  Rx.seqs [Rx.lit "para", Rx.ws, Rx.lit "español", Rx.dotStar, Rx.lit "oprima", Rx.ws, Rx.lit "2"]

/-- Embedding of `COMMON_IVR_RULES` of `ivr-navigation.service.ts`. -/
def COMMON_IVR_RULES : List IVRRule :=
  [ { pattern := patPress0For, action := "0", confidence := some (mkRat 9 10) },
    { pattern := patPress0ToSpeak, action := "0", confidence := some (mkRat 9 10) },
    { pattern := patOperatorPress0, action := "0", confidence := some (mkRat 9 10) },
    { pattern := patPress1Sales, action := "1", confidence := some (mkRat 8 10) },
    { pattern := patPress2Support, action := "2", confidence := some (mkRat 8 10) },
    { pattern := patPress3Billing, action := "3", confidence := some (mkRat 8 10) },
    { pattern := patPress9Repeat, action := "9", confidence := some (mkRat 7 10) },
    { pattern := patPressStarSkip, action := "*", confidence := some (mkRat 7 10) },
    { pattern := patPressHashCont, action := "#", confidence := some (mkRat 7 10) },
    { pattern := patForEnglish, action := "1", confidence := some (mkRat 9 10) },
    { pattern := patParaEspanol, action := "1", confidence := some (mkRat 9 10) } ]

/-- The fixed regexes of `detectIVRSystem`. -/
def ivrIndicators : List Rx :=
  [ Rx.seqs [Rx.lit "thank", Rx.ws, Rx.lit "you", Rx.ws, Rx.lit "for", Rx.ws, Rx.lit "calling"],
    Rx.seqs [Rx.lit "press", Rx.ws, Rx.digits, Rx.ws, Rx.alts [Rx.lit "for", Rx.lit "to"]],
    Rx.seqs [Rx.lit "main", Rx.ws, Rx.lit "menu"],
    Rx.seqs [Rx.lit "please", Rx.ws, Rx.lit "listen", Rx.ws, Rx.lit "carefully"],
    Rx.seqs [Rx.lit "menu", Rx.ws, Rx.lit "options", Rx.ws, Rx.lit "have", Rx.ws, Rx.lit "changed"],
    Rx.seqs [Rx.lit "for", Rx.ws, Rx.dotStar, Rx.lit "press", Rx.ws, Rx.digits],
    Rx.seqs [Rx.lit "to", Rx.ws, Rx.dotStar, Rx.lit "press", Rx.ws, Rx.digits] ]

def detectIVRSystem (transcript : String) : Bool :=
  ivrIndicators.any (fun p => Rx.testI p transcript)

/-- Embedding of `humanPhrases` of `DEFAULT_IVR_CONFIG`. -/
def humanPhrases : List String :=
  [ "how can i help", "how may i assist", "what can i do for you", "speaking",
    "this is", "hello", "good morning", "good afternoon", "good evening" ]

/-- Embedding of `lowerTranscript.includes(phrase)`: substring containment on lists
of characters. -/
def containsList (needle : List Char) : List Char → Bool
  | [] => needle.isEmpty
  | c :: rest => List.isPrefixOf needle (c :: rest) || containsList needle rest

def strContains (hay needle : String) : Bool :=
  containsList needle.toList hay.toList

/-- Embedding of `/^(hi|hello|hey)\s*,?\s*my\s*name\s*is/i` (anchored). -/
def patHumanIntro : Rx :=
  Rx.seqs [Rx.alts [Rx.lit "hi", Rx.lit "hello", Rx.lit "hey"], Rx.ws, Rx.optComma, Rx.ws,
    Rx.lit "my", Rx.ws, Rx.lit "name", Rx.ws, Rx.lit "is"]

/-- Embedding of `/this\s*is\s*\w+\s*(speaking|here)/i` -/
def patThisIsSpeaking : Rx :=
  Rx.seqs [Rx.lit "this", Rx.ws, Rx.lit "is", Rx.ws, Rx.word, Rx.ws,
    Rx.alts [Rx.lit "speaking", Rx.lit "here"]]

/-- Embedding of `/(yes|no)\s*,?\s*(how\s*can|what\s*can)/i` -/
def patYesNoHowCan : Rx :=
  Rx.seqs [Rx.alts [Rx.lit "yes", Rx.lit "no"], Rx.ws, Rx.optComma, Rx.ws,
    Rx.alts [Rx.seqs [Rx.lit "how", Rx.ws, Rx.lit "can"],
      Rx.seqs [Rx.lit "what", Rx.ws, Rx.lit "can"]]]

/-- Embedding of `/i\s*can\s*help\s*you\s*with/i` -/
def patICanHelp : Rx :=
  Rx.seqs [Rx.lit "i", Rx.ws, Rx.lit "can", Rx.ws, Rx.lit "help", Rx.ws,
    Rx.lit "you", Rx.ws, Rx.lit "with"]

/-- Embedding of `IVRNavigationService.detectHuman`. -/
def detectHuman (transcript : String) : Bool :=
  let lowerTranscript := (lowerList transcript.toList).asString
  let hasHumanPhrase := humanPhrases.any (fun phrase =>
    strContains lowerTranscript ((lowerList phrase.toList).asString))
  let hasHumanPattern :=
    Rx.testIAnchored patHumanIntro transcript ||
    Rx.testI patThisIsSpeaking transcript ||
    Rx.testI patYesNoHowCan transcript ||
    Rx.testI patICanHelp transcript
  hasHumanPhrase || hasHumanPattern

/-- One step of the `findMatchingRule` loop body. -/
def bestRuleStep (transcript : String) (acc : Option IVRRule × ℚ) (rule : IVRRule) :
    Option IVRRule × ℚ :=
  if Rx.testI rule.pattern transcript && decide (effConfidence rule > acc.2)
  then (some rule, effConfidence rule)
  else acc

/-- Embedding of `IVRNavigationService.findMatchingRule`. -/
def findMatchingRule (transcript : String) : Option IVRRule :=
  (COMMON_IVR_RULES.foldl (bestRuleStep transcript) (none, 0)).1

/-- Embedding of `IVRNavigationService.enterIVRMode` (the `setIVRTimeout` call is the
`timeoutActive := true` update). -/
def enterIVRMode (s : NavState) : NavState :=
  { s with
    ivr := { s.ivr with isNavigating := true, menuLevel := s.ivr.menuLevel + 1 }
    timeoutActive := true }

/-- Embedding of `IVRNavigationService.detectHumanAgent` (the `clearIVRTimeout` call is
the `timeoutActive := false` update). -/
def detectHumanAgent (s : NavState) : NavState :=
  { s with
    ivr := { s.ivr with humanDetected := true, isNavigating := false }
    timeoutActive := false }

/-- The `if (callState.ivrState.isNavigating)` block of `processTranscript`. -/
def navigatePhase (s : NavState) (transcript : String) : NavState × Option IVRRule :=
  if s.ivr.isNavigating then
    match findMatchingRule transcript with
    | some rule =>
      ({ s with ivr := { s.ivr with
          optionsHeard := s.ivr.optionsHeard ++ [transcript.take 50]
          actionsToken := s.ivr.actionsToken ++ [rule.action] } },
       some rule)
    | none =>
      if detectHuman transcript then (detectHumanAgent s, none) else (s, none)
  else (s, none)

/-- Embedding of `IVRNavigationService.processTranscript`. -/
def processTranscript (s : NavState) (transcript : String) : NavState × Option IVRRule :=
  if !s.ivr.isNavigating then
    if detectIVRSystem transcript then
      navigatePhase (enterIVRMode s) transcript
    else if detectHuman transcript then
      (detectHumanAgent s, none)
    else
      navigatePhase s transcript
  else
    navigatePhase s transcript

/-! ### Barge-in handling (`OpenAICallHandler.handleSpeechStartedEvent`, part_001) -/

/-- The playback-timing slice of `CallState` (part_005) that the
barge-in handler reads and writes. -/
structure CallPlaybackState where
  latestMediaTimestamp : Int
  responseStartTimestampTwilio : Option Int
  lastAssistantItemId : Option String
  markQueue : List String
deriving DecidableEq

/-- Side effects of the barge-in handler: the provider truncate request
and the telephony clear-buffer frame. -/
inductive RelayAction where
  | truncate (itemId : String) (elapsedMs : Int)
  | clearStream
deriving DecidableEq

/-- Embedding of `resetResponseState` (part_001). -/
def resetResponseState (s : CallPlaybackState) : CallPlaybackState :=
  { s with markQueue := [], lastAssistantItemId := none, responseStartTimestampTwilio := none }

/-- Embedding of `handleSpeechStartedEvent` (part_001).  The guard
`markQueue.length === 0 || responseStartTimestampTwilio === null ||
!lastAssistantItemId` is modelled exactly, including the JavaScript
truthiness of the item id (the empty string is falsy). -/
def handleSpeechStartedEvent (s : CallPlaybackState) : CallPlaybackState × List RelayAction :=
  match s.responseStartTimestampTwilio, s.lastAssistantItemId with
  | some rs, some itemId =>
    if s.markQueue.length = 0 || itemId.isEmpty then (s, [])
    else
      (resetResponseState s,
       [RelayAction.truncate itemId (s.latestMediaTimestamp - rs), RelayAction.clearStream])
  | _, _ => (s, [])

/-! ### Provider switch (`src/services/provider-switch.service.ts`) -/

/-- WebSocket `readyState` values. -/
inductive WsReadyState where
  | connecting
  | readyOpen
  | closing
  | closed
deriving DecidableEq

/-- The per-call entry of `ProviderSwitchService.activeConnections`
(the socket objects abstracted to their ready states; absent sockets
are `none`). -/
structure Connections where
  openaiWs : Option WsReadyState
  elevenLabsWs : Option WsReadyState
deriving DecidableEq

/-- Observable side effects of `switchToElevenLabs`, in order. -/
inductive SwitchAction where
  | emitProviderSwitch
  | sendOpenAIFinalMessage
  | closeOpenAI
  | startElevenLabs
  | registerElevenLabs
  | sendConversationContext
  | emitError
deriving DecidableEq

/-- Result of `switchToElevenLabs`: connection map entry, call IVR
state, returned boolean, and the emitted actions in order. -/
structure SwitchResult where
  connections : Option Connections
  nav : NavState
  ok : Bool
  actions : List SwitchAction
deriving DecidableEq

/-- Embedding of `ProviderSwitchService.switchToElevenLabs`, with the success of
`elevenLabsService.start()` supplied as the oracle `startSucceeds`.
The source closes the old OpenAI socket (after a final system message
and a 500 ms pause) *before* attempting the new ElevenLabs connection;
a `start()` failure lands in the `catch` block, which emits an error
event and returns `false`, leaving the state mutations made so far in
place. -/
def switchToElevenLabs (conns : Option Connections) (s : NavState)
    (startSucceeds : Bool) : SwitchResult :=
  match conns with
  | none => { connections := none, nav := s, ok := false, actions := [] }
  | some c =>
    let s1 : NavState :=
      { s with ivr := { s.ivr with
          currentProvider := .elevenlabs, humanDetected := true, isNavigating := false } }
    let acts0 : List SwitchAction := [.emitProviderSwitch]
    let closeOld := c.openaiWs = some WsReadyState.readyOpen
    let c1 : Connections :=
      if closeOld then { c with openaiWs := some WsReadyState.closed } else c
    let acts1 : List SwitchAction :=
      acts0 ++ (if closeOld then [.sendOpenAIFinalMessage, .closeOpenAI] else [])
    let needNew := !(c1.elevenLabsWs == some WsReadyState.readyOpen)
    if needNew then
      if startSucceeds then
        let c2 : Connections := { c1 with elevenLabsWs := some WsReadyState.readyOpen }
        let acts2 := acts1 ++ [SwitchAction.startElevenLabs, SwitchAction.registerElevenLabs]
        -- context is sent iff the (now registered) socket is open
        { connections := some c2, nav := s1, ok := true,
          actions := acts2 ++ [SwitchAction.sendConversationContext] }
      else
        { connections := some c1, nav := s1, ok := false,
          actions := acts1 ++ [SwitchAction.emitError] }
    else
      { connections := some c1, nav := s1, ok := true,
        actions := acts1 ++ [SwitchAction.sendConversationContext] }

/-! ### ElevenLabs WebSocket message handling
(`src/services/elevenlabs/ws.service.ts`, `initialize`) -/

/-- An inbound ElevenLabs frame, reduced to the fields the dispatcher
inspects: `type` and `ping_event?.event_id`. -/
structure ElMessage where
  type : String
  pingEventId : Option String
deriving DecidableEq

/-- An outbound frame `{type, event_id}`. -/
structure OutFrame where
  type : String
  eventId : String
deriving DecidableEq

/-- The message dispatcher of `ElevenLabsWsService.initialize`: returns
the frames sent on the socket and the message forwarded to the
`onMessage` callback (if any).  `message.ping_event?.event_id` is a
JavaScript truthiness test, so an empty event id does not trigger a
pong. -/
def handleElevenLabsMessage (m : ElMessage) : List OutFrame × Option ElMessage :=
  if m.type == "ping" && (match m.pingEventId with
      | some e => !e.isEmpty
      | none => false) then
    ([{ type := "pong", eventId := m.pingEventId.getD "" }], none)
  else if m.type == "pong" then
    ([], none)
  else
    ([], some m)

/-! ### Batch operation service (`BatchOperationService`, `start-http.ts`)

Dates are modelled as integers; the `metadata: Record<string, any>`
field is opaque data never inspected by the service and is not
modelled.  `updateBatchResult` throws when the phone number has no
result, modelled by returning `none` (the state is unchanged when the
exception propagates). -/

inductive BatchOperationType where
  | call
  | sms
deriving DecidableEq

inductive BatchOperationStatus where
  | pending
  | inProgress
  | completed
  | failed
  | partialComplete
deriving DecidableEq

inductive BatchResultStatus where
  | queued
  | inProgress
  | retrying
  | success
  | failed
deriving DecidableEq

/-- Embedding of `BatchResult` (batch.types.ts). -/
structure BatchResult where
  phoneNumber : String
  status : BatchResultStatus
  callSid : Option String := none
  transcriptId : Option String := none
  messageSid : Option String := none
  conversationId : Option String := none
  error : Option String := none
  retryCount : Option Nat := none
  startTime : Int
  endTime : Option Int := none
deriving DecidableEq

/-- Embedding of `BatchOperation` (batch.types.ts); the `config` field is not read
by any of the service operations modelled here. -/
structure BatchOperation where
  batchId : String
  type : BatchOperationType
  status : BatchOperationStatus
  totalTargets : Nat
  completedTargets : Nat
  failedTargets : Nat
  results : List BatchResult
  createdAt : Int
  updatedAt : Int
deriving DecidableEq

/-- Embedding of `createBatchOperation` (batch id generation abstracted). -/
def createBatchOperation (batchId : String) (type : BatchOperationType)
    (totalTargets : Nat) (now : Int) : BatchOperation :=
  { batchId := batchId
    type := type
    status := .pending
    totalTargets := totalTargets
    completedTargets := 0
    failedTargets := 0
    results := []
    createdAt := now
    updatedAt := now }

/-- Embedding of `updateBatchStatus`. -/
def updateBatchStatus (op : BatchOperation) (status : BatchOperationStatus)
    (now : Int) : BatchOperation :=
  { op with status := status, updatedAt := now }

/-- The terminal-status computation at the end of `addBatchResult`. -/
def terminalStatus (completed failed : Nat) : BatchOperationStatus :=
  if failed = 0 then .completed
  else if completed = 0 then .failed
  else .partialComplete

/-- The `findIndex`-then-replace-or-push step of `addBatchResult`:
replace the first result with the same phone number, else append. -/
def upsertResult (result : BatchResult) : List BatchResult → List BatchResult
  | [] => [result]
  | r :: rest =>
    if r.phoneNumber == result.phoneNumber then result :: rest
    else r :: upsertResult result rest

/-- Embedding of `addBatchResult`: update or append the result for the phone number,
bump the counters for `success`/`failed` results, and move to a
terminal status once `completed + failed >= total`. -/
def addBatchResult (op : BatchOperation) (result : BatchResult) (now : Int) :
    BatchOperation :=
  let results' := upsertResult result op.results
  let completed' :=
    if result.status = .success then op.completedTargets + 1 else op.completedTargets
  let failed' :=
    if result.status = .failed then op.failedTargets + 1 else op.failedTargets
  let op' := { op with
    results := results', completedTargets := completed', failedTargets := failed',
    updatedAt := now }
  if completed' + failed' ≥ op.totalTargets then
    { op' with status := terminalStatus completed' failed' }
  else
    op'

/-- A `Partial<BatchResult>` update object.  The outer `Option` is
presence of the key in the object literal; for keys whose field is
itself optional the inner `Option` is the (possibly `undefined`) value,
since `Object.assign` copies keys whose value is `undefined`. -/
structure BatchResultUpdate where
  status : Option BatchResultStatus := none
  callSid : Option (Option String) := none
  transcriptId : Option (Option String) := none
  messageSid : Option (Option String) := none
  conversationId : Option (Option String) := none
  error : Option (Option String) := none
  retryCount : Option (Option Nat) := none
  startTime : Option Int := none
  endTime : Option (Option Int) := none
deriving DecidableEq

/-- Embedding of `Object.assign(result, updates)`. -/
def applyUpdate (r : BatchResult) (u : BatchResultUpdate) : BatchResult :=
  { phoneNumber := r.phoneNumber
    status := u.status.getD r.status
    callSid := u.callSid.getD r.callSid
    transcriptId := u.transcriptId.getD r.transcriptId
    messageSid := u.messageSid.getD r.messageSid
    conversationId := u.conversationId.getD r.conversationId
    error := u.error.getD r.error
    retryCount := u.retryCount.getD r.retryCount
    startTime := u.startTime.getD r.startTime
    endTime := u.endTime.getD r.endTime }

/-- Apply `f` to the first list entry with the given phone number
(`results.find(...)` returns the entry, mutated in place). -/
def updateFirstResult (phone : String) (f : BatchResult → BatchResult) :
    List BatchResult → List BatchResult
  | [] => []
  | r :: rest =>
    if r.phoneNumber == phone then f r :: rest
    else r :: updateFirstResult phone f rest

/-- Embedding of `recalculateCounters`. -/
def recalculateCounters (op : BatchOperation) : BatchOperation :=
  { op with
    completedTargets := (op.results.filter (fun r => r.status == .success)).length
    failedTargets := (op.results.filter (fun r => r.status == .failed)).length }

/-- Embedding of `updateBatchResult`; `none` models the thrown
`Result for ... not found` error. -/
def updateBatchResult (op : BatchOperation) (phone : String)
    (u : BatchResultUpdate) (now : Int) : Option BatchOperation :=
  if op.results.any (fun r => r.phoneNumber == phone) then
    let op' := { op with
      results := updateFirstResult phone (fun r => applyUpdate r u) op.results
      updatedAt := now }
    some (if u.status.isSome then recalculateCounters op' else op')
  else
    none

/-- Embedding of `queueBatchTarget`. -/
def queueBatchTarget (op : BatchOperation) (phone : String) (now : Int) :
    BatchOperation :=
  addBatchResult op { phoneNumber := phone, status := .queued, startTime := now } now

/-- Embedding of `retryBatchTarget`; a missing result makes the call a no-op
(`if (!result) return`). -/
def retryBatchTarget (op : BatchOperation) (phone : String) (now : Int) :
    BatchOperation :=
  match op.results.find? (fun r => r.phoneNumber == phone) with
  | none => op
  | some result =>
    let retryCount := result.retryCount.getD 0 + 1
    (updateBatchResult op phone
      { status := some .retrying
        retryCount := some (some retryCount)
        startTime := some now
        endTime := some none
        error := some none } now).getD op

/-- One externally invocable mutation of a batch operation, for
reasoning about call sequences. -/
inductive BatchCall where
  | add (result : BatchResult) (now : Int)
  | queue (phone : String) (now : Int)
  | update (phone : String) (u : BatchResultUpdate) (now : Int)
  | retry (phone : String) (now : Int)

def applyBatchCall (op : BatchOperation) : BatchCall → BatchOperation
  | .add r now => addBatchResult op r now
  | .queue p now => queueBatchTarget op p now
  | .update p u now => (updateBatchResult op p u now).getD op
  | .retry p now => retryBatchTarget op p now

def applyBatchCalls (op : BatchOperation) (cs : List BatchCall) : BatchOperation :=
  cs.foldl applyBatchCall op

/-- The removal condition of `cleanupOldOperations`:
`operation.updatedAt < cutoffDate && (status === completed || status === failed)`. -/
def cleanupCondition (cutoff : Int) (e : String × BatchOperation) : Bool :=
  e.2.updatedAt < cutoff &&
    (e.2.status == BatchOperationStatus.completed ||
     e.2.status == BatchOperationStatus.failed)

/-- Embedding of `cleanupOldOperations`: the `for (... of entries()) ... delete`
loop over the operations map, as a recursion over the entry list.
`cutoff` is the computed `cutoffDate`. -/
def cleanupOldOperations (cutoff : Int) :
    List (String × BatchOperation) → List (String × BatchOperation) × Nat
  | [] => ([], 0)
  | e :: rest =>
    let (rest', n) := cleanupOldOperations cutoff rest
    if cleanupCondition cutoff e then
      (rest', n + 1)
    else
      (e :: rest', n)

/-! ### Batch call orchestration
(`TwilioCallService.makeBatchCalls` / `processBatchQueue`,
`sms-storage.service.ts`)

The drain loop is a single-threaded async function; one synchronous
block between `await`s is one step of the model.  Starting a chunk
(`Promise.all` over the chunk's calls) is a single schedule step, so
"all calls of a chunk start concurrently and the whole chunk is
awaited before the next" is represented by chunk granularity. -/

/-- One batch target of a `BatchCallRequest`. -/
structure BatchTarget where
  phoneNumber : String
  prompt : Option String := none
  context : Option String := none
deriving DecidableEq

/-- The configuration slice of a queued batch read by the drain loop. -/
structure BatchCallConfig where
  maxConcurrent : Option Nat := none
deriving DecidableEq

/-- Embedding of `config.maxConcurrent || 1`. -/
def effectiveMaxConcurrent (cfg : BatchCallConfig) : Nat :=
  match cfg.maxConcurrent with
  | none => 1
  | some 0 => 1
  | some k => k

/-- The `for (let i = 0; i < targets.length; i += maxConcurrent)` loop:
consecutive slices `targets.slice(i, i + maxConcurrent)`.  Only used
with `maxC ≥ 1` (guaranteed by `effectiveMaxConcurrent`). -/
def chunkTargets (maxC : Nat) : List BatchTarget → List (List BatchTarget)
  | [] => []
  | a :: rest =>
    (a :: rest.take (maxC - 1)) :: chunkTargets maxC (rest.drop (maxC - 1))
termination_by l => l.length
decreasing_by
  simp only [List.length_drop, List.length_cons]
  omega

/-- One step of a batch's processing schedule. -/
inductive SchedStep where
  | startChunk (chunk : List BatchTarget)
  | delayMs (ms : Nat)
deriving DecidableEq

/-- The per-batch schedule: every chunk starts concurrently as one
step, with the fixed 1000 ms inter-chunk wait (the wait runs only when
`i + maxConcurrent < targets.length`, i.e. after every non-final
chunk). -/
def scheduleOfChunks : List (List BatchTarget) → List SchedStep
  | [] => []
  | [c] => [SchedStep.startChunk c]
  | c :: rest => SchedStep.startChunk c :: SchedStep.delayMs 1000 :: scheduleOfChunks rest

/-- The processing of one queued batch inside `processBatchQueue`. -/
def processBatchTargets (targets : List BatchTarget) (cfg : BatchCallConfig) :
    List SchedStep :=
  scheduleOfChunks (chunkTargets (effectiveMaxConcurrent cfg) targets)

/-- An entry of `batchCallQueue`. -/
structure BatchQueueEntry where
  batchId : String
  targets : List BatchTarget
  cfg : BatchCallConfig
deriving DecidableEq

/-- The shared mutable state of `TwilioCallService` used by batching. -/
structure BatchQueueState where
  isProcessingBatch : Bool
  batchCallQueue : List BatchQueueEntry
deriving DecidableEq

/-- The queue/drain-trigger part of `makeBatchCalls`: the batch is
stored in `batchCallQueue`, and `processBatchQueue` is started only if
no drain loop is active (it sets `isProcessingBatch` synchronously on
entry).  The returned boolean says whether a new drain loop was
started. -/
def submitBatch (st : BatchQueueState) (e : BatchQueueEntry) :
    BatchQueueState × Bool :=
  let st' := { st with batchCallQueue := st.batchCallQueue ++ [e] }
  if st.isProcessingBatch then (st', false)
  else ({ st' with isProcessingBatch := true }, true)

/-- The drain loop body: processes queue entries (in iteration order,
including entries appended while the loop runs — JavaScript `Map`
iteration visits entries inserted during iteration) until the queue is
exhausted. -/
def drainLoop : List BatchQueueEntry → List SchedStep
  | [] => []
  | e :: rest => processBatchTargets e.targets e.cfg ++ drainLoop rest

/-- Embedding of `processBatchQueue` run to completion: the queue is emptied, the
`finally` clause clears `isProcessingBatch`, and the concatenated
schedules are produced. -/
def drainQueue (st : BatchQueueState) : BatchQueueState × List SchedStep :=
  ({ isProcessingBatch := false, batchCallQueue := [] }, drainLoop st.batchCallQueue)

/-- The queue-all-targets-up-front loop of `makeBatchCalls`. -/
def queueAllTargets (op : BatchOperation) (targets : List BatchTarget) (now : Int) :
    BatchOperation :=
  targets.foldl (fun o t => queueBatchTarget o t.phoneNumber now) op

/-! ## Theorems -/

/-- Claim C1: when the mark queue is non-empty, the response-start
timestamp is non-null and a (truthy) last assistant item id is set,
the provider speech-started event produces exactly a truncate request
for that item at offset `latestMediaTimestamp -
responseStartTimestampTwilio` followed by a clear-buffer frame, and
resets the mark queue, item id and response-start timestamp; when any
precondition fails, the state is unchanged and nothing is sent. -/
theorem C1_speechStarted_barge_in (s : CallPlaybackState) :
    (∀ rs itemId, s.responseStartTimestampTwilio = some rs →
      s.lastAssistantItemId = some itemId → s.markQueue ≠ [] → itemId ≠ "" →
      handleSpeechStartedEvent s =
        ({ s with markQueue := [], lastAssistantItemId := none,
                  responseStartTimestampTwilio := none },
         [RelayAction.truncate itemId (s.latestMediaTimestamp - rs),
          RelayAction.clearStream])) ∧
    ((s.markQueue = [] ∨ s.responseStartTimestampTwilio = none ∨
        s.lastAssistantItemId = none ∨ s.lastAssistantItemId = some "") →
      handleSpeechStartedEvent s = (s, [])) := by
  constructor
  · intro rs itemId hrs hid hmq hne
    simp only [handleSpeechStartedEvent, hrs, hid, resetResponseState]
    have h1 : s.markQueue.length = 0 ↔ False := by
      simp [List.length_eq_zero, hmq]
    have h2 : itemId.isEmpty = false := by
      cases hb : itemId.isEmpty
      · rfl
      · exact absurd ((String.isEmpty_iff _).mp hb) hne
    simp [h1, h2]
  · intro h
    rcases h with h | h | h | h
    · cases hrs : s.responseStartTimestampTwilio with
      | none => simp [handleSpeechStartedEvent, hrs]
      | some rs =>
        cases hid : s.lastAssistantItemId with
        | none => simp [handleSpeechStartedEvent, hrs, hid]
        | some itemId => simp [handleSpeechStartedEvent, hrs, hid, h]
    · cases hid : s.lastAssistantItemId with
      | none => simp [handleSpeechStartedEvent, h, hid]
      | some itemId => simp [handleSpeechStartedEvent, h, hid]
    · cases hrs : s.responseStartTimestampTwilio with
      | none => simp [handleSpeechStartedEvent, hrs]
      | some rs => simp [handleSpeechStartedEvent, hrs, h]
    · cases hrs : s.responseStartTimestampTwilio with
      | none => simp [handleSpeechStartedEvent, hrs]
      | some rs => simp [handleSpeechStartedEvent, hrs, h, String.isEmpty_iff]

/-- Witness for C1 at concrete states. -/
theorem C1_speechStarted_barge_in_witness :
    handleSpeechStartedEvent
        { latestMediaTimestamp := 250, responseStartTimestampTwilio := some 10,
          lastAssistantItemId := some "item1", markQueue := ["m1"] } =
      ({ latestMediaTimestamp := 250, responseStartTimestampTwilio := none,
         lastAssistantItemId := none, markQueue := [] },
       [RelayAction.truncate "item1" 240, RelayAction.clearStream]) ∧
    handleSpeechStartedEvent
        { latestMediaTimestamp := 250, responseStartTimestampTwilio := some 10,
          lastAssistantItemId := some "item1", markQueue := [] } =
      ({ latestMediaTimestamp := 250, responseStartTimestampTwilio := some 10,
         lastAssistantItemId := some "item1", markQueue := [] }, []) := by
  constructor
  · exact (C1_speechStarted_barge_in _).1 10 "item1" rfl rfl (by decide) (by decide)
  · exact (C1_speechStarted_barge_in _).2 (Or.inl rfl)

/-- Claim C9: an inbound ElevenLabs `ping` frame carrying a (truthy)
`event_id` is answered with exactly one outbound
`{type: "pong", event_id}` frame echoing that id, is not forwarded to
the message callback, and has no other effect. -/
theorem C9_ping_pong (m : ElMessage) (e : String)
    (hty : m.type = "ping") (hid : m.pingEventId = some e) (hne : e ≠ "") :
    handleElevenLabsMessage m = ([{ type := "pong", eventId := e }], none) := by
  have h2 : e.isEmpty = false := by
    cases hb : e.isEmpty
    · rfl
    · exact absurd ((String.isEmpty_iff _).mp hb) hne
  simp [handleElevenLabsMessage, hty, hid, h2]

/-- Witness for C9: the `event_id = "abc"` instance of the claim. -/
theorem C9_ping_pong_witness :
    handleElevenLabsMessage { type := "ping", pingEventId := some "abc" } =
      ([{ type := "pong", eventId := "abc" }], none) :=
  C9_ping_pong _ "abc" rfl rfl (by decide)

/-- Counterexample to claim C4: with an open OpenAI socket, no open
ElevenLabs socket, and a failing `elevenLabsService.start()`, the
switch does return failure and does emit an error event — but the old
OpenAI connection has already been closed, not left open and intact. -/
theorem C4_counterexample :
    (switchToElevenLabs
        (some { openaiWs := some WsReadyState.readyOpen, elevenLabsWs := none })
        initialNavState false).ok = false ∧
    SwitchAction.emitError ∈
      (switchToElevenLabs
        (some { openaiWs := some WsReadyState.readyOpen, elevenLabsWs := none })
        initialNavState false).actions ∧
    ¬ ((switchToElevenLabs
        (some { openaiWs := some WsReadyState.readyOpen, elevenLabsWs := none })
        initialNavState false).connections =
      some { openaiWs := some WsReadyState.readyOpen, elevenLabsWs := none }) ∧
    (switchToElevenLabs
        (some { openaiWs := some WsReadyState.readyOpen, elevenLabsWs := none })
        initialNavState false).connections =
      some { openaiWs := some WsReadyState.closed, elevenLabsWs := none } := by
  decide

/-- Claim C4, corrected: when opening the new ElevenLabs connection
fails, the switch aborts with a failure result and an error event is
emitted — but the previously open OpenAI connection has already been
sent a final message and closed before the new connection was
attempted, so it is closed, not left open. -/
theorem C4_switch_failure (c : Connections) (s : NavState)
    (hopen : c.openaiWs = some WsReadyState.readyOpen)
    (hno : c.elevenLabsWs ≠ some WsReadyState.readyOpen) :
    (switchToElevenLabs (some c) s false).ok = false ∧
    SwitchAction.emitError ∈ (switchToElevenLabs (some c) s false).actions ∧
    (switchToElevenLabs (some c) s false).connections =
      some { openaiWs := some WsReadyState.closed, elevenLabsWs := c.elevenLabsWs } ∧
    (switchToElevenLabs (some c) s false).actions =
      [SwitchAction.emitProviderSwitch, SwitchAction.sendOpenAIFinalMessage,
       SwitchAction.closeOpenAI, SwitchAction.emitError] := by
  have hne : (({ c with openaiWs := some WsReadyState.closed } :
      Connections).elevenLabsWs == some WsReadyState.readyOpen) = false := by
    simpa using hno
  simp [switchToElevenLabs, hopen, hne]

/-- Witness for the corrected C4 at a concrete connection state. -/
theorem C4_switch_failure_witness :
    (switchToElevenLabs
        (some { openaiWs := some WsReadyState.readyOpen,
                elevenLabsWs := some WsReadyState.closed })
        initialNavState false).ok = false ∧
    SwitchAction.emitError ∈
      (switchToElevenLabs
        (some { openaiWs := some WsReadyState.readyOpen,
                elevenLabsWs := some WsReadyState.closed })
        initialNavState false).actions ∧
    (switchToElevenLabs
        (some { openaiWs := some WsReadyState.readyOpen,
                elevenLabsWs := some WsReadyState.closed })
        initialNavState false).connections =
      some { openaiWs := some WsReadyState.closed,
             elevenLabsWs := some WsReadyState.closed } ∧
    (switchToElevenLabs
        (some { openaiWs := some WsReadyState.readyOpen,
                elevenLabsWs := some WsReadyState.closed })
        initialNavState false).actions =
      [SwitchAction.emitProviderSwitch, SwitchAction.sendOpenAIFinalMessage,
       SwitchAction.closeOpenAI, SwitchAction.emitError] :=
  C4_switch_failure _ initialNavState rfl (by decide)

/-- Counterexample to claim C6: while navigating, a transcript that
matches the human-speech heuristics (`"hello"`) but also matches a
menu rule is answered with the rule; `humanDetected` is not set,
navigation is not cleared, and the timeout stays pending. -/
theorem C6_counterexample :
    detectHuman "hello, press 1 for sales" = true ∧
    (processTranscript (processTranscript initialNavState "thank you for calling").1
        "hello, press 1 for sales").1.ivr.humanDetected = false ∧
    (processTranscript (processTranscript initialNavState "thank you for calling").1
        "hello, press 1 for sales").1.ivr.isNavigating = true ∧
    (processTranscript (processTranscript initialNavState "thank you for calling").1
        "hello, press 1 for sales").1.timeoutActive = true := by
  decide

/-- Claim C6, corrected: a transcript matching the human-speech
heuristics sets `humanDetected`, clears `isNavigating` and cancels the
pending IVR timeout, and no rule is returned — provided no menu rule
matches the transcript while the call is navigating (a matching rule
wins and skips human detection); when the call is not navigating and
the transcript is not IVR boilerplate, no rule is consulted and the
proviso holds automatically.  In particular this covers
"Hi, this is Sarah, how can I help you today?" while not navigating. -/
theorem C6_human_detection (s : NavState) (t : String)
    (hh : detectHuman t = true)
    (hr : findMatchingRule t = none ∨
          (s.ivr.isNavigating = false ∧ detectIVRSystem t = false)) :
    (processTranscript s t).1.ivr.humanDetected = true ∧
    (processTranscript s t).1.ivr.isNavigating = false ∧
    (processTranscript s t).1.timeoutActive = false ∧
    (processTranscript s t).2 = none := by
  rcases hr with hr | ⟨hnav, hivr⟩
  · cases hnav : s.ivr.isNavigating with
    | true =>
      simp [processTranscript, navigatePhase, hnav, hr, hh, detectHumanAgent]
    | false =>
      cases hivr : detectIVRSystem t with
      | true =>
        simp [processTranscript, navigatePhase, hnav, hivr, hr, hh,
          detectHumanAgent, enterIVRMode]
      | false =>
        simp [processTranscript, navigatePhase, hnav, hivr, hh, detectHumanAgent]
  · simp [processTranscript, navigatePhase, hnav, hivr, hh, detectHumanAgent]

/-- Witness for the corrected C6: the Sarah greeting while not
navigating. -/
theorem C6_human_detection_witness :
    (processTranscript initialNavState
        "Hi, this is Sarah, how can I help you today?").1.ivr.humanDetected = true ∧
    (processTranscript initialNavState
        "Hi, this is Sarah, how can I help you today?").1.ivr.isNavigating = false ∧
    (processTranscript initialNavState
        "Hi, this is Sarah, how can I help you today?").1.timeoutActive = false ∧
    (processTranscript initialNavState
        "Hi, this is Sarah, how can I help you today?").2 = none :=
  C6_human_detection initialNavState _ (by decide) (Or.inr ⟨rfl, by decide⟩)

/-- Counterexample to claim C7: after a human is detected, an IVR
boilerplate transcript re-enters navigation without clearing
`humanDetected`, so a state with both flags set is reachable. -/
theorem C7_counterexample :
    (processTranscript
        (processTranscript initialNavState
          "Hi, this is Sarah, how can I help you today?").1
        "thank you for calling").1.ivr.isNavigating = true ∧
    (processTranscript
        (processTranscript initialNavState
          "Hi, this is Sarah, how can I help you today?").1
        "thank you for calling").1.ivr.humanDetected = true := by
  decide

/-- One externally driven operation on a call's IVR state: a provider
transcript processed by the navigation engine, or a provider switch. -/
inductive NavOp where
  | transcriptEvent (t : String)
  | switchEvent (conns : Option Connections) (startSucceeds : Bool)

def applyNavOp (s : NavState) : NavOp → NavState
  | .transcriptEvent t => (processTranscript s t).1
  | .switchEvent conns ok => (switchToElevenLabs conns s ok).nav

/-- Claim C7, corrected: over any sequence of IVR-navigation and
provider-switch operations `menuLevel` never decreases, and any single
operation that newly sets `humanDetected` leaves `isNavigating` false
(a provider switch with a registered connection entry always does);
but mutual exclusion of `isNavigating` and `humanDetected` fails in
general, because entering IVR mode does not clear `humanDetected`. -/
theorem C7_menuLevel_monotone_and_human_clears_nav :
    (∀ (s : NavState) (ops : List NavOp),
      s.ivr.menuLevel ≤ (ops.foldl applyNavOp s).ivr.menuLevel) ∧
    (∀ (s : NavState) (op : NavOp),
      s.ivr.humanDetected = false →
      (applyNavOp s op).ivr.humanDetected = true →
      (applyNavOp s op).ivr.isNavigating = false) ∧
    (∀ (s : NavState) (c : Connections) (b : Bool),
      (switchToElevenLabs (some c) s b).nav.ivr.humanDetected = true ∧
      (switchToElevenLabs (some c) s b).nav.ivr.isNavigating = false) := by
  have hswitch : ∀ (s : NavState) (c : Connections) (b : Bool),
      (switchToElevenLabs (some c) s b).nav.ivr.humanDetected = true ∧
      (switchToElevenLabs (some c) s b).nav.ivr.isNavigating = false ∧
      (switchToElevenLabs (some c) s b).nav.ivr.menuLevel = s.ivr.menuLevel := by
    intro s c b
    simp only [switchToElevenLabs]
    repeat' split
    all_goals simp
  have hstep : ∀ (s : NavState) (op : NavOp),
      s.ivr.menuLevel ≤ (applyNavOp s op).ivr.menuLevel := by
    intro s op
    cases op with
    | transcriptEvent t =>
      simp only [applyNavOp, processTranscript, navigatePhase, enterIVRMode,
        detectHumanAgent]
      repeat' split
      all_goals simp
    | switchEvent conns ok =>
      cases conns with
      | none => simp [applyNavOp, switchToElevenLabs]
      | some c => exact le_of_eq (hswitch s c ok).2.2.symm
  refine ⟨?_, ?_, fun s c b => ⟨(hswitch s c b).1, (hswitch s c b).2.1⟩⟩
  · intro s ops
    induction ops generalizing s with
    | nil => simp
    | cons op rest ih =>
      exact le_trans (hstep s op) (ih (applyNavOp s op))
  · intro s op h0
    cases op with
    | transcriptEvent t =>
      simp only [applyNavOp, processTranscript, navigatePhase, enterIVRMode,
        detectHumanAgent]
      repeat' split
      all_goals simp_all
    | switchEvent conns ok =>
      cases conns with
      | none =>
        intro h1
        simp [applyNavOp, switchToElevenLabs] at h1
        exact absurd h1 (by simp [h0])
      | some c => exact fun _ => (hswitch s c ok).2.1

/-- Claim C10: `cleanupOldOperations` removes exactly the stored
operations whose status is `completed` or `failed` and whose
`updatedAt` is strictly older than the cutoff, returns their count,
and never removes an operation whose status is `partial_complete`,
`pending` or `in_progress`, regardless of age. -/
theorem C10_cleanupOldOperations (cutoff : Int) (m : List (String × BatchOperation)) :
    (cleanupOldOperations cutoff m).1 =
      m.filter (fun e => !cleanupCondition cutoff e) ∧
    (cleanupOldOperations cutoff m).2 =
      (m.filter (cleanupCondition cutoff)).length ∧
    (∀ e ∈ m,
      e.2.status = BatchOperationStatus.partialComplete ∨
      e.2.status = BatchOperationStatus.pending ∨
      e.2.status = BatchOperationStatus.inProgress →
      e ∈ (cleanupOldOperations cutoff m).1) := by
  have key : ∀ (l : List (String × BatchOperation)),
      (cleanupOldOperations cutoff l).1 = l.filter (fun e => !cleanupCondition cutoff e) ∧
      (cleanupOldOperations cutoff l).2 = (l.filter (cleanupCondition cutoff)).length := by
    intro l
    induction l with
    | nil => simp [cleanupOldOperations]
    | cons e rest ih =>
      cases hc : cleanupCondition cutoff e <;>
        simp [cleanupOldOperations, hc, List.filter_cons, ih.1, ih.2]
  refine ⟨(key m).1, (key m).2, ?_⟩
  intro e he hst
  rw [(key m).1]
  refine List.mem_filter.mpr ⟨he, ?_⟩
  rcases hst with h | h | h <;> simp [cleanupCondition, h]

/-- Witness for C10: one stale completed operation is removed, one
stale pending operation is kept. -/
theorem C10_cleanupOldOperations_witness :
    ("keep",
      { batchId := "keep", type := BatchOperationType.call,
        status := BatchOperationStatus.pending, totalTargets := 1,
        completedTargets := 0, failedTargets := 0, results := [],
        createdAt := 0, updatedAt := 0 }) ∈
      (cleanupOldOperations 100
        [("drop",
          { batchId := "drop", type := BatchOperationType.call,
            status := BatchOperationStatus.completed, totalTargets := 1,
            completedTargets := 1, failedTargets := 0, results := [],
            createdAt := 0, updatedAt := 0 }),
         ("keep",
          { batchId := "keep", type := BatchOperationType.call,
            status := BatchOperationStatus.pending, totalTargets := 1,
            completedTargets := 0, failedTargets := 0, results := [],
            createdAt := 0, updatedAt := 0 })]).1 :=
  (C10_cleanupOldOperations 100 _).2.2 _ (by decide) (Or.inr (Or.inl rfl))

/-- A `find?` hit splits the list, and everything
before it fails the predicate. -/
theorem find?_split {α : Type} (f : α → Bool) :
    ∀ (l : List α) (r : α), l.find? f = some r →
      ∃ before after, l = before ++ r :: after ∧
        (∀ b ∈ before, f b = false) ∧ f r = true := by
  intro l
  induction l with
  | nil => intro r h; simp [List.find?] at h
  | cons a rest ih =>
    intro r h
    cases ha : f a with
    | true =>
      rw [List.find?_cons_of_pos _ ha] at h
      obtain rfl : a = r := by injection h
      exact ⟨[], rest, rfl, by simp, ha⟩
    | false =>
      rw [List.find?_cons_of_neg _ (by simp [ha])] at h
      obtain ⟨before, after, heq, hb, hr⟩ := ih r h
      refine ⟨a :: before, after, by simp [heq], ?_, hr⟩
      intro b hb'
      rcases List.mem_cons.mp hb' with rfl | hb'
      · exact ha
      · exact hb b hb'

/-- The function `updateFirstResult` rewrites exactly the first hit. -/
theorem updateFirstResult_split (p : String) (f : BatchResult → BatchResult)
    (r : BatchResult) (hr : (r.phoneNumber == p) = true) :
    ∀ (before after : List BatchResult),
      (∀ b ∈ before, (b.phoneNumber == p) = false) →
      updateFirstResult p f (before ++ r :: after) = before ++ f r :: after := by
  intro before
  induction before with
  | nil => intro after _; simp [updateFirstResult, hr]
  | cons b rest ih =>
    intro after hb
    have hbp : (b.phoneNumber == p) = false := hb b (by simp)
    simp only [List.cons_append, updateFirstResult, hbp]
    simp [ih after (fun x hx => hb x (by simp [hx]))]

/-- Claim C3: `retryBatchTarget` on an existing result sets its status
to `retrying`, clears `endTime` and `error`, increments `retryCount`
by exactly one (a missing count reads as 0), resets `startTime`, and
overwrites the result in place: the collection keeps its shape and
length, nothing is removed or duplicated. -/
theorem C3_retryBatchTarget (op : BatchOperation) (p : String) (now : Int)
    (r : BatchResult)
    (hf : op.results.find? (fun x => x.phoneNumber == p) = some r) :
    ∃ before after,
      op.results = before ++ r :: after ∧
      (∀ b ∈ before, (b.phoneNumber == p) = false) ∧
      (retryBatchTarget op p now).results =
        before ++
          { r with status := BatchResultStatus.retrying, endTime := none,
                   error := none, retryCount := some (r.retryCount.getD 0 + 1),
                   startTime := now } :: after ∧
      (retryBatchTarget op p now).results.length = op.results.length := by
  obtain ⟨before, after, heq, hb, hr⟩ := find?_split _ op.results r hf
  have hany : op.results.any (fun x => x.phoneNumber == p) = true := by
    rw [heq]
    simp only [List.any_append, List.any_cons, hr]
    simp
  refine ⟨before, after, heq, hb, ?_⟩
  have hres : (retryBatchTarget op p now).results =
      before ++
        { r with status := BatchResultStatus.retrying, endTime := none,
                 error := none, retryCount := some (r.retryCount.getD 0 + 1),
                 startTime := now } :: after := by
    simp only [retryBatchTarget, hf, updateBatchResult, hany, if_true,
      Option.isSome_some, recalculateCounters, Option.getD_some]
    rw [heq, updateFirstResult_split p _ r hr before after hb]
    simp [applyUpdate]
  exact ⟨hres, by simp [hres, heq]⟩

/-- Witness for C3 at a concrete batch operation. -/
theorem C3_retryBatchTarget_witness :
    ∃ before after,
      ({ batchId := "b", type := BatchOperationType.call,
         status := BatchOperationStatus.inProgress, totalTargets := 2,
         completedTargets := 0, failedTargets := 1,
         results :=
           [{ phoneNumber := "p1", status := BatchResultStatus.queued,
              startTime := 0 },
            { phoneNumber := "p2", status := BatchResultStatus.failed,
              error := some "busy", retryCount := some 1, startTime := 0,
              endTime := some 5 }],
         createdAt := 0, updatedAt := 5 } : BatchOperation).results =
        before ++
          ({ phoneNumber := "p2", status := BatchResultStatus.failed,
             error := some "busy", retryCount := some 1, startTime := 0,
             endTime := some 5 } : BatchResult) :: after ∧
      (∀ b ∈ before, (b.phoneNumber == "p2") = false) ∧
      (retryBatchTarget
          { batchId := "b", type := BatchOperationType.call,
            status := BatchOperationStatus.inProgress, totalTargets := 2,
            completedTargets := 0, failedTargets := 1,
            results :=
              [{ phoneNumber := "p1", status := BatchResultStatus.queued,
                 startTime := 0 },
               { phoneNumber := "p2", status := BatchResultStatus.failed,
                 error := some "busy", retryCount := some 1, startTime := 0,
                 endTime := some 5 }],
            createdAt := 0, updatedAt := 5 } "p2" 99).results =
        before ++
          ({ phoneNumber := "p2", status := BatchResultStatus.retrying,
             endTime := none, error := none, retryCount := some 2,
             startTime := 99 } : BatchResult) :: after ∧
      (retryBatchTarget
          { batchId := "b", type := BatchOperationType.call,
            status := BatchOperationStatus.inProgress, totalTargets := 2,
            completedTargets := 0, failedTargets := 1,
            results :=
              [{ phoneNumber := "p1", status := BatchResultStatus.queued,
                 startTime := 0 },
               { phoneNumber := "p2", status := BatchResultStatus.failed,
                 error := some "busy", retryCount := some 1, startTime := 0,
                 endTime := some 5 }],
            createdAt := 0, updatedAt := 5 } "p2" 99).results.length = 2 :=
  C3_retryBatchTarget _ "p2" 99 _ rfl

/-- A result record used in the C2 call sequences. -/
def c2successP1 : BatchResult :=
  { phoneNumber := "p1", status := BatchResultStatus.success, startTime := 0 }

/-- Two raw `addBatchResult` calls for the same number. -/
def c2opA : BatchOperation :=
  applyBatchCalls (createBatchOperation "b" BatchOperationType.call 1 0)
    [BatchCall.add c2successP1 0, BatchCall.add c2successP1 0]

/-- Queue one target, then complete it through `updateBatchResult`. -/
def c2opB : BatchOperation :=
  applyBatchCalls (createBatchOperation "b2" BatchOperationType.call 1 0)
    [BatchCall.queue "p1" 0,
     BatchCall.update "p1" { status := some BatchResultStatus.success } 1]

/-- Counterexample to claim C2: two direct `addBatchResult` calls for
the same phone number with status `success` push the counters past
`totalTargets` (the invariant `completed + failed ≤ total` fails), and
a queue-then-`updateBatchResult` flow reaches `completed + failed =
total` with the status still the non-terminal `pending` (the
"terminal iff equality" direction fails). -/
theorem C2_counterexample :
    c2opA.completedTargets + c2opA.failedTargets = 2 ∧
    c2opA.totalTargets = 1 ∧
    c2opB.completedTargets + c2opB.failedTargets = 1 ∧
    c2opB.totalTargets = 1 ∧
    c2opB.status = BatchOperationStatus.pending := by
  decide

def isQueueCall : BatchCall → Bool
  | .queue _ _ => true
  | _ => false

/-- Calls that never bump counters directly: everything except a raw
`addBatchResult` with a caller-chosen status. -/
def safeBatchCall : BatchCall → Bool
  | .add _ _ => false
  | _ => true

def queueCount (cs : List BatchCall) : Nat := (cs.filter isQueueCall).length

theorem upsertResult_length_le (res : BatchResult) (l : List BatchResult) :
    (upsertResult res l).length ≤ l.length + 1 := by
  induction l with
  | nil => simp [upsertResult]
  | cons r rest ih =>
    simp only [upsertResult]
    split
    · simp
    · simp
      omega

theorem updateFirstResult_length (p : String) (f : BatchResult → BatchResult)
    (l : List BatchResult) : (updateFirstResult p f l).length = l.length := by
  induction l with
  | nil => rfl
  | cons r rest ih =>
    simp only [updateFirstResult]
    split <;> simp [ih]

theorem filter_success_failed_le (l : List BatchResult) :
    (l.filter (fun r => r.status == BatchResultStatus.success)).length +
      (l.filter (fun r => r.status == BatchResultStatus.failed)).length ≤ l.length := by
  induction l with
  | nil => simp
  | cons r rest ih =>
    cases hs : (r.status == BatchResultStatus.success) <;>
      cases hf : (r.status == BatchResultStatus.failed) <;>
      simp [List.filter_cons, hs, hf] <;>
      first
        | omega
        | (exact absurd (beq_iff_eq.mp hf) (by
            rw [beq_iff_eq.mp hs]; intro h; cases h))

/-- Shape of a successful `updateBatchResult`: total, status and result
count are preserved; the counters are either recomputed from the
results (when a status was supplied) or untouched. -/
theorem updateBatchResult_spec (op : BatchOperation) (p : String)
    (u : BatchResultUpdate) (now : Int) :
    updateBatchResult op p u now = none ∨
    ∃ op', updateBatchResult op p u now = some op' ∧
      op'.totalTargets = op.totalTargets ∧
      op'.status = op.status ∧
      op'.results.length = op.results.length ∧
      ((op'.completedTargets =
          (op'.results.filter (fun r => r.status == BatchResultStatus.success)).length ∧
        op'.failedTargets =
          (op'.results.filter (fun r => r.status == BatchResultStatus.failed)).length) ∨
       (op'.completedTargets = op.completedTargets ∧
        op'.failedTargets = op.failedTargets)) := by
  by_cases hany : op.results.any (fun r => r.phoneNumber == p) = true
  · right
    cases hu : u.status.isSome
    · refine ⟨{ op with
          results := updateFirstResult p (fun r => applyUpdate r u) op.results
          updatedAt := now }, ?_, rfl, rfl, by simp [updateFirstResult_length],
        Or.inr ⟨rfl, rfl⟩⟩
      simp [updateBatchResult, hany, hu]
    · refine ⟨recalculateCounters { op with
          results := updateFirstResult p (fun r => applyUpdate r u) op.results
          updatedAt := now }, ?_, rfl, rfl,
        by simp [recalculateCounters, updateFirstResult_length],
        Or.inl ⟨rfl, rfl⟩⟩
      simp [updateBatchResult, hany, hu]
  · left
    simp only [updateBatchResult]
    rw [if_neg hany]

/-- A `retryBatchTarget` call is either a no-op or one `updateBatchResult`. -/
theorem retryBatchTarget_shape (op : BatchOperation) (p : String) (now : Int) :
    retryBatchTarget op p now = op ∨
    ∃ u, retryBatchTarget op p now = (updateBatchResult op p u now).getD op := by
  simp only [retryBatchTarget]
  cases op.results.find? (fun r => r.phoneNumber == p) with
  | none => exact Or.inl rfl
  | some r => exact Or.inr ⟨_, rfl⟩

theorem addBatchResult_totalTargets (op : BatchOperation) (r : BatchResult)
    (now : Int) : (addBatchResult op r now).totalTargets = op.totalTargets := by
  simp only [addBatchResult]
  repeat' split
  all_goals rfl

theorem queueBatchTarget_counters (op : BatchOperation) (p : String) (now : Int) :
    (queueBatchTarget op p now).completedTargets = op.completedTargets ∧
    (queueBatchTarget op p now).failedTargets = op.failedTargets ∧
    (queueBatchTarget op p now).totalTargets = op.totalTargets := by
  simp only [queueBatchTarget, addBatchResult]
  repeat' split
  all_goals simp_all

theorem queueBatchTarget_length (op : BatchOperation) (p : String) (now : Int) :
    (queueBatchTarget op p now).results.length ≤ op.results.length + 1 := by
  have h := upsertResult_length_le
    { phoneNumber := p, status := BatchResultStatus.queued, startTime := now }
    op.results
  simp only [queueBatchTarget, addBatchResult]
  repeat' split
  all_goals simpa using h

/-- One safe call preserves the inductive invariant of C2. -/
theorem safeBatchCall_step (op : BatchOperation) (c : BatchCall)
    (rest : List BatchCall) (hc : safeBatchCall c = true)
    (h1 : op.results.length + queueCount (c :: rest) ≤ op.totalTargets)
    (h2 : op.completedTargets + op.failedTargets ≤ op.totalTargets) :
    (applyBatchCall op c).results.length + queueCount rest ≤
      (applyBatchCall op c).totalTargets ∧
    (applyBatchCall op c).completedTargets + (applyBatchCall op c).failedTargets ≤
      (applyBatchCall op c).totalTargets := by
  have hlen : op.results.length ≤ op.totalTargets := by
    have : queueCount (c :: rest) ≥ 0 := Nat.zero_le _
    omega
  have hupd : ∀ (p : String) (u : BatchResultUpdate) (now : Int),
      ((updateBatchResult op p u now).getD op).results.length + queueCount rest ≤
        ((updateBatchResult op p u now).getD op).totalTargets ∧
      ((updateBatchResult op p u now).getD op).completedTargets +
        ((updateBatchResult op p u now).getD op).failedTargets ≤
        ((updateBatchResult op p u now).getD op).totalTargets := by
    intro p u now
    have hq : queueCount rest ≤ queueCount (c :: rest) := by
      simp only [queueCount, List.filter_cons]
      split <;> simp
    rcases updateBatchResult_spec op p u now with h | ⟨op', heq, htot, _, hlen', hcnt⟩
    · rw [h]
      simp only [Option.getD_none]
      constructor <;> omega
    · rw [heq]
      simp only [Option.getD_some]
      constructor
      · omega
      · rcases hcnt with ⟨hc', hf'⟩ | ⟨hc', hf'⟩
        · have := filter_success_failed_le op'.results
          omega
        · omega
  cases c with
  | add r now => simp [safeBatchCall] at hc
  | queue p now =>
    have hqc : queueCount (BatchCall.queue p now :: rest) = queueCount rest + 1 := by
      simp [queueCount, List.filter_cons, isQueueCall]
    obtain ⟨hc', hf', ht'⟩ := queueBatchTarget_counters op p now
    have hl' := queueBatchTarget_length op p now
    constructor
    · simp only [applyBatchCall]
      rw [ht']
      omega
    · simp only [applyBatchCall]
      rw [hc', hf', ht']
      omega
  | update p u now =>
    exact hupd p u now
  | retry p now =>
    rcases retryBatchTarget_shape op p now with h | ⟨u, h⟩
    · simp only [applyBatchCall, h]
      have hq : queueCount rest ≤ queueCount (BatchCall.retry p now :: rest) := by
        simp only [queueCount, List.filter_cons]
        split <;> simp
      constructor <;> omega
    · simp only [applyBatchCall, h]
      exact hupd p u now

/-- The C2 inductive invariant over a safe call sequence. -/
theorem safeBatchCalls_invariant :
    ∀ (cs : List BatchCall) (op : BatchOperation),
      (∀ c ∈ cs, safeBatchCall c = true) →
      op.results.length + queueCount cs ≤ op.totalTargets →
      op.completedTargets + op.failedTargets ≤ op.totalTargets →
      (applyBatchCalls op cs).completedTargets + (applyBatchCalls op cs).failedTargets ≤
        (applyBatchCalls op cs).totalTargets := by
  intro cs
  induction cs with
  | nil => intro op _ _ h2; exact h2
  | cons c rest ih =>
    intro op hsafe h1 h2
    have hc := hsafe c (by simp)
    obtain ⟨h1', h2'⟩ := safeBatchCall_step op c rest hc h1 h2
    exact ih (applyBatchCall op c) (fun x hx => hsafe x (by simp [hx])) h1' h2'

/-- Claim C2, corrected.  The stated invariant fails for raw
`addBatchResult` calls (see the counterexample), and the
terminal-status rule is tied to `addBatchResult` alone:
(1) for sequences of `queueBatchTarget` / `updateBatchResult` /
`retryBatchTarget` calls with at most `totalTargets` queue calls,
`completed + failed ≤ total` holds at every observation point;
(2) `updateBatchResult` never changes the status, so equality
`completed + failed = total` can hold with a non-terminal status;
(3) `addBatchResult` makes the status terminal as soon as its updated
counters reach `completed + failed ≥ total` (not exactly at equality),
choosing `completed` when `failed = 0`, `failed` when `completed = 0`,
and `partial_complete` otherwise, and leaves the status untouched
below the threshold. -/
theorem C2_counters_and_terminal_status (batchId : String)
    (ty : BatchOperationType) (total : Nat) (t0 : Int) (cs : List BatchCall)
    (hsafe : ∀ c ∈ cs, safeBatchCall c = true)
    (hq : queueCount cs ≤ total) :
    (∀ pre suf, cs = pre ++ suf →
      (applyBatchCalls (createBatchOperation batchId ty total t0) pre).completedTargets +
        (applyBatchCalls (createBatchOperation batchId ty total t0) pre).failedTargets ≤
        (applyBatchCalls (createBatchOperation batchId ty total t0) pre).totalTargets) ∧
    (∀ (op : BatchOperation) (p : String) (u : BatchResultUpdate) (now : Int)
        (op' : BatchOperation),
      updateBatchResult op p u now = some op' → op'.status = op.status) ∧
    (∀ (op : BatchOperation) (r : BatchResult) (now : Int),
      ((addBatchResult op r now).completedTargets +
          (addBatchResult op r now).failedTargets ≥ op.totalTargets →
        (addBatchResult op r now).status =
          terminalStatus (addBatchResult op r now).completedTargets
            (addBatchResult op r now).failedTargets) ∧
      ((addBatchResult op r now).completedTargets +
          (addBatchResult op r now).failedTargets < op.totalTargets →
        (addBatchResult op r now).status = op.status)) := by
  refine ⟨?_, ?_, ?_⟩
  · intro pre suf hsplit
    have hsafe' : ∀ c ∈ pre, safeBatchCall c = true := by
      intro c hcm
      exact hsafe c (by simp [hsplit, hcm])
    have hqpre : queueCount pre ≤ total := by
      have : queueCount cs = queueCount pre + queueCount suf := by
        simp [hsplit, queueCount, List.filter_append]
      omega
    exact safeBatchCalls_invariant pre (createBatchOperation batchId ty total t0)
      hsafe' (by simpa [createBatchOperation] using hqpre)
      (by simp [createBatchOperation])
  · intro op p u now op' heq
    rcases updateBatchResult_spec op p u now with h | ⟨op'', heq', _, hst, _⟩
    · rw [h] at heq; cases heq
    · rw [heq'] at heq
      injection heq with h'
      rw [← h']
      exact hst
  · intro op r now
    by_cases hcond :
        (if r.status = BatchResultStatus.success then op.completedTargets + 1
          else op.completedTargets) +
        (if r.status = BatchResultStatus.failed then op.failedTargets + 1
          else op.failedTargets) ≥ op.totalTargets
    · have hx : addBatchResult op r now =
          { op with
            results := upsertResult r op.results
            completedTargets :=
              if r.status = BatchResultStatus.success then op.completedTargets + 1
              else op.completedTargets
            failedTargets :=
              if r.status = BatchResultStatus.failed then op.failedTargets + 1
              else op.failedTargets
            updatedAt := now
            status := terminalStatus
              (if r.status = BatchResultStatus.success then op.completedTargets + 1
                else op.completedTargets)
              (if r.status = BatchResultStatus.failed then op.failedTargets + 1
                else op.failedTargets) } := by
        simp only [addBatchResult]
        rw [if_pos hcond]
      rw [hx]
      constructor
      · intro _; rfl
      · intro hlt
        exfalso
        have hlt' :
            (if r.status = BatchResultStatus.success then op.completedTargets + 1
              else op.completedTargets) +
            (if r.status = BatchResultStatus.failed then op.failedTargets + 1
              else op.failedTargets) < op.totalTargets := hlt
        omega
    · have hx : addBatchResult op r now =
          { op with
            results := upsertResult r op.results
            completedTargets :=
              if r.status = BatchResultStatus.success then op.completedTargets + 1
              else op.completedTargets
            failedTargets :=
              if r.status = BatchResultStatus.failed then op.failedTargets + 1
              else op.failedTargets
            updatedAt := now } := by
        simp only [addBatchResult]
        rw [if_neg hcond]
      rw [hx]
      constructor
      · intro hge
        exfalso
        have hge' :
            (if r.status = BatchResultStatus.success then op.completedTargets + 1
              else op.completedTargets) +
            (if r.status = BatchResultStatus.failed then op.failedTargets + 1
              else op.failedTargets) ≥ op.totalTargets := hge
        omega
      · intro _; rfl

/-- Witness for the corrected C2 at a concrete safe call sequence. -/
theorem C2_counters_witness :
    ((applyBatchCalls (createBatchOperation "b3" BatchOperationType.call 2 0)
        [BatchCall.queue "p1" 0, BatchCall.queue "p2" 0,
         BatchCall.update "p1" { status := some BatchResultStatus.success } 1]
      ).completedTargets +
      (applyBatchCalls (createBatchOperation "b3" BatchOperationType.call 2 0)
        [BatchCall.queue "p1" 0, BatchCall.queue "p2" 0,
         BatchCall.update "p1" { status := some BatchResultStatus.success } 1]
      ).failedTargets ≤
      (applyBatchCalls (createBatchOperation "b3" BatchOperationType.call 2 0)
        [BatchCall.queue "p1" 0, BatchCall.queue "p2" 0,
         BatchCall.update "p1" { status := some BatchResultStatus.success } 1]
      ).totalTargets) :=
  (C2_counters_and_terminal_status "b3" BatchOperationType.call 2 0
      [BatchCall.queue "p1" 0, BatchCall.queue "p2" 0,
       BatchCall.update "p1" { status := some BatchResultStatus.success } 1]
      (by decide) (by decide)).1
    [BatchCall.queue "p1" 0, BatchCall.queue "p2" 0,
     BatchCall.update "p1" { status := some BatchResultStatus.success } 1]
    [] (by simp)

/-- Invariants of the `findMatchingRule` fold: the running confidence
never drops, bounds every matching rule seen, and the accumulator is
either untouched or holds a matching rule from the list that strictly
beats the incoming bound and every earlier match. -/
theorem bestRule_fold_spec (t : String) :
    ∀ (l : List IVRRule) (acc : Option IVRRule × ℚ),
      acc.2 ≤ (l.foldl (bestRuleStep t) acc).2 ∧
      (∀ r' ∈ l, Rx.testI r'.pattern t = true →
        effConfidence r' ≤ (l.foldl (bestRuleStep t) acc).2) ∧
      (l.foldl (bestRuleStep t) acc = acc ∨
        ∃ before r after, l = before ++ r :: after ∧
          (l.foldl (bestRuleStep t) acc).1 = some r ∧
          (l.foldl (bestRuleStep t) acc).2 = effConfidence r ∧
          Rx.testI r.pattern t = true ∧ acc.2 < effConfidence r ∧
          (∀ r' ∈ before, Rx.testI r'.pattern t = true →
            effConfidence r' < effConfidence r)) := by
  intro l
  induction l with
  | nil => exact fun acc => ⟨le_refl _, by simp, Or.inl rfl⟩
  | cons a rest ih =>
    intro acc
    by_cases hstep : Rx.testI a.pattern t = true ∧ acc.2 < effConfidence a
    · have hf : bestRuleStep t acc a = (some a, effConfidence a) := by
        simp [bestRuleStep, hstep.1, hstep.2]
      have hfold : (a :: rest).foldl (bestRuleStep t) acc =
          rest.foldl (bestRuleStep t) (some a, effConfidence a) := by
        simp [List.foldl_cons, hf]
      obtain ⟨A, B, C⟩ := ih (some a, effConfidence a)
      rw [hfold]
      refine ⟨le_trans (le_of_lt hstep.2) A, ?_, ?_⟩
      · intro r' hr' hm
        rcases List.mem_cons.mp hr' with rfl | hr'
        · exact le_trans A (le_refl _) |>.trans (le_refl _) |> fun _ => A
        · exact B r' hr' hm
      · rcases C with heq | ⟨before, r, after, hsp, h1, h2, h3, h4, h5⟩
        · refine Or.inr ⟨[], a, rest, by simp, ?_, ?_, hstep.1, hstep.2, by simp⟩
          · rw [heq]
          · rw [heq]
        · refine Or.inr ⟨a :: before, r, after, by simp [hsp], h1, h2, h3,
            lt_trans hstep.2 h4, ?_⟩
          intro r' hr' hm
          rcases List.mem_cons.mp hr' with rfl | hr'
          · exact h4
          · exact h5 r' hr' hm
    · have hf : bestRuleStep t acc a = acc := by
        by_cases ht : Rx.testI a.pattern t = true
        · have hle : ¬ acc.2 < effConfidence a := fun hlt => hstep ⟨ht, hlt⟩
          simp [bestRuleStep, ht, hle]
        · simp [bestRuleStep, Bool.eq_false_iff.mpr ht]
      have hfold : (a :: rest).foldl (bestRuleStep t) acc =
          rest.foldl (bestRuleStep t) acc := by
        simp [List.foldl_cons, hf]
      obtain ⟨A, B, C⟩ := ih acc
      rw [hfold]
      have hma : Rx.testI a.pattern t = true → effConfidence a ≤ acc.2 := by
        intro ht
        by_contra hlt
        exact hstep ⟨ht, lt_of_not_le hlt⟩
      refine ⟨A, ?_, ?_⟩
      · intro r' hr' hm
        rcases List.mem_cons.mp hr' with rfl | hr'
        · exact le_trans (hma hm) A
        · exact B r' hr' hm
      · rcases C with heq | ⟨before, r, after, hsp, h1, h2, h3, h4, h5⟩
        · exact Or.inl heq
        · refine Or.inr ⟨a :: before, r, after, by simp [hsp], h1, h2, h3, h4, ?_⟩
          intro r' hr' hm
          rcases List.mem_cons.mp hr' with rfl | hr'
          · exact lt_of_le_of_lt (hma hm) h4
          · exact h5 r' hr' hm

/-- Every rule of `COMMON_IVR_RULES` has a positive effective
confidence. -/
theorem common_rules_confidence_pos :
    ∀ r ∈ COMMON_IVR_RULES, 0 < effConfidence r := by
  decide

/-- The first spec transcript matches the press-1-for-sales rule. -/
theorem findMatchingRule_thankYou :
    findMatchingRule
        "Thank you for calling. Press 1 for sales, press 0 for an operator" =
      some { pattern := patPress1Sales, action := "1", delay := none,
             confidence := some (mkRat 8 10) } := by
  rfl

/-- The second spec transcript matches the operator-press-0 rule. -/
theorem findMatchingRule_operator :
    findMatchingRule "operator, press 0" =
      some { pattern := patOperatorPress0, action := "0", delay := none,
             confidence := some (mkRat 9 10) } := by
  rfl

set_option maxRecDepth 8192 in
/-- Claim C5: the IVR boilerplate transcript flips the fresh call into
navigation at menu level 1; while navigating, `findMatchingRule`
returns the matching rule of highest confidence (ties to the earlier
rule) and a match appends the transcript snippet and the digit to the
histories; "operator, press 0" yields digit "0" with confidence at
least 0.9. -/
theorem C5_ivr_navigation :
    (∀ s : NavState, s.ivr.isNavigating = false → s.ivr.menuLevel = 0 →
      (processTranscript s
        "Thank you for calling. Press 1 for sales, press 0 for an operator"
        ).1.ivr.isNavigating = true ∧
      (processTranscript s
        "Thank you for calling. Press 1 for sales, press 0 for an operator"
        ).1.ivr.menuLevel = 1) ∧
    (∀ (t : String) (r : IVRRule), findMatchingRule t = some r →
      r ∈ COMMON_IVR_RULES ∧ Rx.testI r.pattern t = true ∧
      (∀ r' ∈ COMMON_IVR_RULES, Rx.testI r'.pattern t = true →
        effConfidence r' ≤ effConfidence r) ∧
      ∃ before after, COMMON_IVR_RULES = before ++ r :: after ∧
        (∀ r' ∈ before, Rx.testI r'.pattern t = true →
          effConfidence r' < effConfidence r)) ∧
    (∀ t : String, (∃ r' ∈ COMMON_IVR_RULES, Rx.testI r'.pattern t = true) →
      (findMatchingRule t).isSome = true) ∧
    (∀ (s : NavState) (t : String) (r : IVRRule), s.ivr.isNavigating = true →
      findMatchingRule t = some r →
      processTranscript s t =
        ({ s with ivr := { s.ivr with
            optionsHeard := s.ivr.optionsHeard ++ [t.take 50]
            actionsToken := s.ivr.actionsToken ++ [r.action] } }, some r)) ∧
    (∀ s : NavState, s.ivr.isNavigating = true →
      ∃ r : IVRRule, (processTranscript s "operator, press 0").2 = some r ∧
        r.action = "0" ∧ mkRat 9 10 ≤ effConfidence r ∧
        (processTranscript s "operator, press 0").1.ivr.actionsToken =
          s.ivr.actionsToken ++ ["0"] ∧
        (processTranscript s "operator, press 0").1.ivr.optionsHeard =
          s.ivr.optionsHeard ++ ["operator, press 0"]) := by
  have hpush : ∀ (s : NavState) (t : String) (r : IVRRule),
      s.ivr.isNavigating = true → findMatchingRule t = some r →
      processTranscript s t =
        ({ s with ivr := { s.ivr with
            optionsHeard := s.ivr.optionsHeard ++ [t.take 50]
            actionsToken := s.ivr.actionsToken ++ [r.action] } }, some r) := by
    intro s t r hnav hmatch
    simp [processTranscript, navigatePhase, hnav, hmatch]
  refine ⟨?_, ?_, ?_, hpush, ?_⟩
  · intro s h1 h2
    have hivr : detectIVRSystem
        "Thank you for calling. Press 1 for sales, press 0 for an operator" = true := by
      decide
    have hstep : processTranscript s
        "Thank you for calling. Press 1 for sales, press 0 for an operator" =
        navigatePhase (enterIVRMode s)
          "Thank you for calling. Press 1 for sales, press 0 for an operator" := by
      simp [processTranscript, h1, hivr]
    rw [hstep]
    have hnav' : (enterIVRMode s).ivr.isNavigating = true := rfl
    simp [navigatePhase, hnav', findMatchingRule_thankYou, enterIVRMode, h2]
  · intro t r h
    simp only [findMatchingRule] at h
    obtain ⟨A, B, C⟩ := bestRule_fold_spec t COMMON_IVR_RULES (none, 0)
    rcases C with heq | ⟨before, rr, after, hsp, h1, h2, h3, _, h5⟩
    · rw [heq] at h
      cases h
    · rw [h1] at h
      injection h with h
      subst h
      refine ⟨by simp [hsp], h3, ?_, before, after, hsp, h5⟩
      intro r' hr' hm
      rw [← h2]
      exact B r' hr' hm
  · intro t ⟨r', hr'mem, hr'match⟩
    obtain ⟨A, B, C⟩ := bestRule_fold_spec t COMMON_IVR_RULES (none, 0)
    rcases C with heq | ⟨before, rr, after, hsp, h1, _, _, _, _⟩
    · have h0 : effConfidence r' ≤ 0 := by
        have := B r' hr'mem hr'match
        rw [heq] at this
        exact this
      exact absurd (lt_of_lt_of_le (common_rules_confidence_pos r' hr'mem) h0)
        (lt_irrefl 0)
    · simp [findMatchingRule, h1]
  · intro s hnav
    have hres := hpush s "operator, press 0" _ hnav findMatchingRule_operator
    rw [hres]
    exact ⟨{ pattern := patOperatorPress0, action := "0", delay := none,
             confidence := some (mkRat 9 10) }, rfl, rfl, by decide, rfl, rfl⟩

/-- Witness for C5 at concrete inputs: the fresh call enters
navigation at level 1 on the boilerplate transcript, and the
operator transcript presses "0" with confidence 0.9. -/
theorem C5_ivr_navigation_witness :
    ((processTranscript initialNavState
        "Thank you for calling. Press 1 for sales, press 0 for an operator"
        ).1.ivr.isNavigating = true ∧
     (processTranscript initialNavState
        "Thank you for calling. Press 1 for sales, press 0 for an operator"
        ).1.ivr.menuLevel = 1) ∧
    (∃ r : IVRRule,
      (processTranscript
          { ivr := { initialIVRState with isNavigating := true },
            timeoutActive := true } "operator, press 0").2 = some r ∧
      r.action = "0" ∧ mkRat 9 10 ≤ effConfidence r ∧
      (processTranscript
          { ivr := { initialIVRState with isNavigating := true },
            timeoutActive := true } "operator, press 0").1.ivr.actionsToken =
        ({ initialIVRState with isNavigating := true } : IVRState).actionsToken ++ ["0"] ∧
      (processTranscript
          { ivr := { initialIVRState with isNavigating := true },
            timeoutActive := true } "operator, press 0").1.ivr.optionsHeard =
        ({ initialIVRState with isNavigating := true } : IVRState).optionsHeard ++
          ["operator, press 0"]) :=
  ⟨C5_ivr_navigation.1 initialNavState rfl rfl,
   C5_ivr_navigation.2.2.2.2
     { ivr := { initialIVRState with isNavigating := true }, timeoutActive := true }
     rfl⟩

theorem addBatchResult_results (op : BatchOperation) (r : BatchResult) (now : Int) :
    (addBatchResult op r now).results = upsertResult r op.results := by
  simp only [addBatchResult]
  repeat' split
  all_goals rfl

theorem upsertResult_append (res : BatchResult) :
    ∀ (l : List BatchResult),
      (∀ r ∈ l, (r.phoneNumber == res.phoneNumber) = false) →
      upsertResult res l = l ++ [res] := by
  intro l
  induction l with
  | nil => intro _; rfl
  | cons r rest ih =>
    intro h
    have hr := h r (by simp)
    simp only [upsertResult, hr, Bool.false_eq_true, if_false, List.cons_append,
      List.cons.injEq, true_and]
    exact ih (fun x hx => h x (by simp [hx]))

/-- Queueing targets with pairwise-distinct numbers records one
`queued` result per target, in order, after the existing results. -/
theorem queueAllTargets_spec :
    ∀ (targets : List BatchTarget) (op : BatchOperation) (now : Int),
      (targets.map (fun t => t.phoneNumber)).Nodup →
      (∀ t ∈ targets, ∀ r ∈ op.results, (r.phoneNumber == t.phoneNumber) = false) →
      (queueAllTargets op targets now).results.map (fun r => (r.phoneNumber, r.status)) =
        op.results.map (fun r => (r.phoneNumber, r.status)) ++
          targets.map (fun t => (t.phoneNumber, BatchResultStatus.queued)) := by
  intro targets
  induction targets with
  | nil => intro op now _ _; simp [queueAllTargets]
  | cons t ts ih =>
    intro op now hnodup hfresh
    have hres : (queueBatchTarget op t.phoneNumber now).results =
        op.results ++
          [{ phoneNumber := t.phoneNumber, status := BatchResultStatus.queued,
             startTime := now }] := by
      rw [queueBatchTarget, addBatchResult_results]
      exact upsertResult_append _ op.results (fun r hr => hfresh t (by simp) r hr)
    have hnodup' : (ts.map (fun t => t.phoneNumber)).Nodup :=
      (List.nodup_cons.mp (by simpa using hnodup)).2
    have hnotin : t.phoneNumber ∉ ts.map (fun t => t.phoneNumber) :=
      (List.nodup_cons.mp (by simpa using hnodup)).1
    have hfresh' : ∀ t' ∈ ts,
        ∀ r ∈ (queueBatchTarget op t.phoneNumber now).results,
          (r.phoneNumber == t'.phoneNumber) = false := by
      intro t' ht' r hr
      rw [hres] at hr
      rcases List.mem_append.mp hr with hr | hr
      · exact hfresh t' (by simp [ht']) r hr
      · have : r.phoneNumber = t.phoneNumber := by
          rcases List.mem_singleton.mp hr with rfl
          rfl
        rw [this]
        have hne : t.phoneNumber ≠ t'.phoneNumber := by
          intro hcontra
          exact hnotin (hcontra ▸ List.mem_map_of_mem (fun t => t.phoneNumber) ht')
        simp [hne]
    have := ih (queueBatchTarget op t.phoneNumber now) now hnodup' hfresh'
    simp only [queueAllTargets, List.foldl_cons] at *
    rw [this, hres]
    simp

/-- The chunk loop partitions the target list in order into nonempty
chunks of size at most `maxC`. -/
theorem chunkTargets_spec (maxC : Nat) (hm : 1 ≤ maxC) :
    ∀ (l : List BatchTarget),
      (chunkTargets maxC l).flatten = l ∧
      ∀ c ∈ chunkTargets maxC l, c ≠ [] ∧ c.length ≤ maxC := by
  have key : ∀ (n : Nat) (l : List BatchTarget), l.length ≤ n →
      (chunkTargets maxC l).flatten = l ∧
      ∀ c ∈ chunkTargets maxC l, c ≠ [] ∧ c.length ≤ maxC := by
    intro n
    induction n with
    | zero =>
      intro l hl
      have : l = [] := List.eq_nil_of_length_eq_zero (Nat.le_zero.mp hl)
      subst this
      simp [chunkTargets]
    | succ n ih =>
      intro l hl
      cases l with
      | nil => simp [chunkTargets]
      | cons a rest =>
        have hdrop : (rest.drop (maxC - 1)).length ≤ n := by
          simp only [List.length_drop]
          simp only [List.length_cons] at hl
          omega
        obtain ⟨hjoin, hmem⟩ := ih (rest.drop (maxC - 1)) hdrop
        have hunfold : chunkTargets maxC (a :: rest) =
            (a :: rest.take (maxC - 1)) :: chunkTargets maxC (rest.drop (maxC - 1)) := by
          rw [chunkTargets]
        constructor
        · rw [hunfold]
          simp only [List.flatten_cons, hjoin, List.cons_append, List.cons.injEq, true_and]
          exact List.take_append_drop (maxC - 1) rest
        · intro c hc
          rw [hunfold] at hc
          rcases List.mem_cons.mp hc with rfl | hc
          · refine ⟨by simp, ?_⟩
            have := List.length_take_le (maxC - 1) rest
            simp only [List.length_cons]
            omega
          · exact hmem c hc
  exact fun l => key l.length l (le_refl _)

/-- The per-batch schedule is the chunk starts interleaved with the
fixed 1000 ms delays. -/
theorem scheduleOfChunks_eq_intersperse :
    ∀ (chunks : List (List BatchTarget)),
      scheduleOfChunks chunks =
        List.intersperse (SchedStep.delayMs 1000) (chunks.map SchedStep.startChunk) := by
  intro chunks
  induction chunks with
  | nil => rfl
  | cons c rest ih =>
    cases rest with
    | nil => rfl
    | cons c2 rest2 =>
      simp only [scheduleOfChunks, List.map_cons, List.intersperse]
      simp only [List.map_cons] at ih
      rw [ih]

theorem drainLoop_append :
    ∀ (q : List BatchQueueEntry) (e : BatchQueueEntry),
      drainLoop (q ++ [e]) = drainLoop q ++ processBatchTargets e.targets e.cfg := by
  intro q e
  induction q with
  | nil => simp [drainLoop]
  | cons x rest ih => simp [drainLoop, ih]

/-- Claim C8: targets are queued up front with status `queued`
(one result per distinct number, in order); processing partitions the
list into consecutive chunks of at most `maxConcurrent` (default 1,
never less than 1); a chunk is one concurrent start step and
successive chunks are separated by exactly the 1000 ms delay; a batch
submitted while the drain loop is active is appended to the shared
queue and consumed by that loop — no second loop starts — while a
submission with no active loop starts one. -/
theorem C8_batch_chunking :
    (∀ (targets : List BatchTarget) (batchId : String) (t0 now : Int),
      (targets.map (fun t => t.phoneNumber)).Nodup →
      (queueAllTargets
          (createBatchOperation batchId BatchOperationType.call targets.length t0)
          targets now).results.map (fun r => (r.phoneNumber, r.status)) =
        targets.map (fun t => (t.phoneNumber, BatchResultStatus.queued))) ∧
    (effectiveMaxConcurrent { maxConcurrent := none } = 1 ∧
      ∀ cfg : BatchCallConfig, 1 ≤ effectiveMaxConcurrent cfg) ∧
    (∀ (targets : List BatchTarget) (cfg : BatchCallConfig),
      (chunkTargets (effectiveMaxConcurrent cfg) targets).flatten = targets ∧
      (∀ c ∈ chunkTargets (effectiveMaxConcurrent cfg) targets,
        c ≠ [] ∧ c.length ≤ effectiveMaxConcurrent cfg)) ∧
    (∀ (targets : List BatchTarget) (cfg : BatchCallConfig),
      processBatchTargets targets cfg =
        List.intersperse (SchedStep.delayMs 1000)
          ((chunkTargets (effectiveMaxConcurrent cfg) targets).map
            SchedStep.startChunk)) ∧
    (∀ (st : BatchQueueState) (e : BatchQueueEntry),
      st.isProcessingBatch = true →
      submitBatch st e = ({ st with batchCallQueue := st.batchCallQueue ++ [e] }, false) ∧
      (drainQueue (submitBatch st e).1).2 =
        drainLoop st.batchCallQueue ++ processBatchTargets e.targets e.cfg) ∧
    (∀ (st : BatchQueueState) (e : BatchQueueEntry),
      st.isProcessingBatch = false →
      (submitBatch st e).2 = true ∧ (submitBatch st e).1.isProcessingBatch = true) ∧
    (∀ st : BatchQueueState,
      (drainQueue st).1.isProcessingBatch = false ∧
      (drainQueue st).1.batchCallQueue = []) := by
  refine ⟨?_, ⟨rfl, ?_⟩, ?_, ?_, ?_, ?_, fun st => ⟨rfl, rfl⟩⟩
  · intro targets batchId t0 now hnodup
    have := queueAllTargets_spec targets
      (createBatchOperation batchId BatchOperationType.call targets.length t0)
      now hnodup (by simp [createBatchOperation])
    simpa [createBatchOperation] using this
  · intro cfg
    cases hc : cfg.maxConcurrent with
    | none => simp [effectiveMaxConcurrent, hc]
    | some k =>
      cases k with
      | zero => simp [effectiveMaxConcurrent, hc]
      | succ k => simp [effectiveMaxConcurrent, hc]
  · intro targets cfg
    have hm : 1 ≤ effectiveMaxConcurrent cfg := by
      cases hc : cfg.maxConcurrent with
      | none => simp [effectiveMaxConcurrent, hc]
      | some k =>
        cases k with
        | zero => simp [effectiveMaxConcurrent, hc]
        | succ k => simp [effectiveMaxConcurrent, hc]
    exact chunkTargets_spec _ hm targets
  · intro targets cfg
    simp only [processBatchTargets]
    exact scheduleOfChunks_eq_intersperse _
  · intro st e hp
    constructor
    · simp [submitBatch, hp]
    · simp [submitBatch, hp, drainQueue, drainLoop_append]
  · intro st e hp
    constructor <;> simp [submitBatch, hp]

/-- Witness for C8 at a concrete two-target batch with
`maxConcurrent = 1` and an active drain loop. -/
theorem C8_batch_chunking_witness :
    ((queueAllTargets
        (createBatchOperation "b8" BatchOperationType.call 2 0)
        [{ phoneNumber := "p1" }, { phoneNumber := "p2" }] 0).results.map
      (fun r => (r.phoneNumber, r.status)) =
      [("p1", BatchResultStatus.queued), ("p2", BatchResultStatus.queued)]) ∧
    (chunkTargets (effectiveMaxConcurrent { maxConcurrent := none })
        [{ phoneNumber := "p1" }, { phoneNumber := "p2" }]).flatten =
      [({ phoneNumber := "p1" } : BatchTarget), { phoneNumber := "p2" }] ∧
    ((submitBatch { isProcessingBatch := true, batchCallQueue := [] }
        { batchId := "b8", targets := [{ phoneNumber := "p1" }], cfg := {} }).2 =
      false) :=
  ⟨(C8_batch_chunking.1 [{ phoneNumber := "p1" }, { phoneNumber := "p2" }]
      "b8" 0 0 (by decide)),
   (C8_batch_chunking.2.2.1 [{ phoneNumber := "p1" }, { phoneNumber := "p2" }]
      { maxConcurrent := none }).1,
   by
    have := C8_batch_chunking.2.2.2.2.1
      { isProcessingBatch := true, batchCallQueue := [] }
      { batchId := "b8", targets := [{ phoneNumber := "p1" }], cfg := {} } rfl
    rw [this.1]⟩

/-- Witness for the corrected C7 at concrete inputs. -/
theorem C7_witness :
    initialNavState.ivr.menuLevel ≤
      (([NavOp.transcriptEvent "thank you for calling"].foldl applyNavOp
        initialNavState)).ivr.menuLevel ∧
    (applyNavOp initialNavState
        (NavOp.transcriptEvent "Hi, this is Sarah, how can I help you today?")
      ).ivr.isNavigating = false ∧
    (switchToElevenLabs
        (some { openaiWs := none, elevenLabsWs := none })
        initialNavState true).nav.ivr.humanDetected = true :=
  ⟨C7_menuLevel_monotone_and_human_clears_nav.1 initialNavState _,
   C7_menuLevel_monotone_and_human_clears_nav.2.1 initialNavState _ rfl (by decide),
   (C7_menuLevel_monotone_and_human_clears_nav.2.2 initialNavState
      { openaiWs := none, elevenLabsWs := none } true).1⟩

end VoiceCall
